import Mathlib

/-!
Verification of the `sqlt` SQL template-tag library.

The JavaScript/TypeScript source is shallowly embedded below:
* `Value` is the open union of interpolatable values (`typeof`-style
  classification made into an explicit inductive);
* `sql` is the template-tag interpolator (`strings.reduce` fold);
* `raw` / `caseWhen` are the raw-fragment builders;
* `TxState` with `add` / `commit` / `rollback` is the transaction
  accumulator (its closure-captured `queries` / `params` arrays made
  into explicit state passing).
-/

/-- Character-list version of JavaScript `String.prototype.startsWith`. -/
def listStartsWith : List Char → List Char → Bool
  | [], _ => true
  | _ :: _, [] => false
  | a :: as, b :: bs => a == b && listStartsWith as bs

/-- Character-list version of JavaScript substring containment. -/
def listHasSub (needle : List Char) : List Char → Bool
  | [] => listStartsWith needle []
  | b :: bs => listStartsWith needle (b :: bs) || listHasSub needle bs

/-- JavaScript `hay.includes(needle)`. -/
def strIncludes (hay needle : String) : Bool :=
  listHasSub needle.toList hay.toList

/-- The literal marker text checked by the interpolator's skip branch,
`"sql\x60"` (the last character is a backtick, written as an escape). -/
def skipMarker : String := "sql\x60"

/-- A dynamic value that can be interpolated into the template.
JavaScript classifies at runtime with `typeof` / `Array.isArray` /
`instanceof Raw`; here each class is a constructor.  `vRaw` carries the
`Raw` wrapper's `value` (text) and `params` (bound values, `[]` when the
JS field is `undefined`).  `vObj` carries `Object.entries` in insertion
order.  JS `undefined` never occurs as a stored element in the code's
uses; absence of a value (past the end of `values`) is modelled by list
exhaustion in the fold. -/
inductive Value where
  | vNull : Value
  | vStr : String → Value
  | vNum : Int → Value
  | vBool : Bool → Value
  | vRaw : String → List Value → Value
  | vArr : List Value → Value
  | vObj : List (String × Value) → Value

/-- The skip-branch test: `typeof value === "string" && value.includes("sql\x60")`. -/
def Value.isSkip : Value → Bool
  | .vStr s => strIncludes s skipMarker
  | _ => false

/-- The values caught by the interpolator's fallback branch
(`typeof` string, number or boolean). -/
def Value.isScalar : Value → Bool
  | .vStr _ => true
  | .vNum _ => true
  | .vBool _ => true
  | _ => false

/-- Field access `r.value` on a `Raw` wrapper (as in the test suite);
`""` on every other value. -/
def Value.rawText : Value → String
  | .vRaw t _ => t
  | _ => ""

/-- Field access `r.params` on a `Raw` wrapper; `[]` on every other
value and when the JS field is `undefined`. -/
def Value.rawParams : Value → List Value
  | .vRaw _ ps => ps
  | _ => []

/-- The `{query, params}` object returned by `sql` and `commit`. -/
structure Statement where
  query : String
  params : List Value

/-- The body of `strings.reduce` from `sql`, one step per segment.
Branches, in source order:
1. a string value containing the marker: `return result` (note: the
   segment `str` is NOT appended);
2. value present and non-null:
   a. `instanceof Raw`: `result + str + value.value` (the wrapper's own
      `params` are not pushed);
   b. array: `result + str + "(" + placeholders + ")"`, elements pushed;
   c. other object: `key = ?` per entry joined by `", "`, entry values
      pushed;
   d. fallback scalar: `result + str + "?"`, value pushed;
3. value `undefined` (list exhausted) or null: `result + str`. -/
def sqlAux : List String → List Value → String → List Value → Statement
  | [], _, res, ps => ⟨res, ps⟩
  | str :: strs, [], res, ps => sqlAux strs [] (res ++ str) ps
  | str :: strs, v :: vs, res, ps =>
    if v.isSkip then
      sqlAux strs vs res ps
    else
      match v with
      | .vNull => sqlAux strs vs (res ++ str) ps
      | .vRaw t _ => sqlAux strs vs (res ++ str ++ t) ps
      | .vArr xs =>
          sqlAux strs vs
            (res ++ str ++ "(" ++ String.intercalate ", " (xs.map fun _ => "?") ++ ")")
            (ps ++ xs)
      | .vObj es =>
          sqlAux strs vs
            (res ++ str ++ String.intercalate ", " (es.map fun e => e.1 ++ " = ?"))
            (ps ++ es.map fun e => e.2)
      | v => sqlAux strs vs (res ++ str ++ "?") (ps ++ [v])

/-- The `sql` template tag: fold over the segments with empty accumulators. -/
def sql (strings : List String) (values : List Value) : Statement :=
  sqlAux strings values "" []

/-- Accumulator for the instrumented fold `sqlAuxI`: the `query` and
`params` of the plain fold plus two counters — `nonRawQs`, the number of
placeholder markers appended so far by the non-raw branches (array,
object, scalar), and `rawBoundPs`, the number of entries the `Raw`
branch has pushed onto `params` from a wrapper's own `params` field. -/
structure AccI where
  query : String
  params : List Value
  nonRawQs : Nat
  rawBoundPs : Nat

/-- The interpolation fold instrumented with the two counters.  Every
branch updates `query`/`params` exactly as `sqlAux` does; the array,
object and scalar branches additionally count the placeholders they
emit, and the `Raw` branch leaves both counters unchanged because the
source line `result + str + value.value` pushes nothing onto `params`. -/
def sqlAuxI : List String → List Value → AccI → AccI
  | [], _, acc => acc
  | str :: strs, [], acc =>
      sqlAuxI strs [] { acc with query := acc.query ++ str }
  | str :: strs, v :: vs, acc =>
    if v.isSkip then
      sqlAuxI strs vs acc
    else
      match v with
      | .vNull => sqlAuxI strs vs { acc with query := acc.query ++ str }
      | .vRaw t _ => sqlAuxI strs vs { acc with query := acc.query ++ str ++ t }
      | .vArr xs =>
          sqlAuxI strs vs
            { query := acc.query ++ str ++ "(" ++
                String.intercalate ", " (xs.map fun _ => "?") ++ ")",
              params := acc.params ++ xs,
              nonRawQs := acc.nonRawQs + xs.length,
              rawBoundPs := acc.rawBoundPs }
      | .vObj es =>
          sqlAuxI strs vs
            { query := acc.query ++ str ++
                String.intercalate ", " (es.map fun e => e.1 ++ " = ?"),
              params := acc.params ++ es.map fun e => e.2,
              nonRawQs := acc.nonRawQs + es.length,
              rawBoundPs := acc.rawBoundPs }
      | v =>
          sqlAuxI strs vs
            { query := acc.query ++ str ++ "?",
              params := acc.params ++ [v],
              nonRawQs := acc.nonRawQs + 1,
              rawBoundPs := acc.rawBoundPs }

/-- The instrumented interpolator, started from empty accumulators. -/
def sqlI (strings : List String) (values : List Value) : AccI :=
  sqlAuxI strings values ⟨"", [], 0, 0⟩

/-- The `raw(value, params)` constructor (`new Raw(value, params)`). -/
def raw (value : String) (params : List Value) : Value :=
  .vRaw value params

/-- The `caseWhen(field, cases)` builder: one `WHEN <field> = ? THEN ?`
per entry joined by spaces inside `CASE … END`, and the entries
flattened as condition, result, condition, result, …. -/
def caseWhen (field : String) (cases : List (String × Value)) : Value :=
  let conditions :=
    String.intercalate " " (cases.map fun _ => "WHEN " ++ field ++ " = ? THEN ?")
  let ps := cases.flatMap fun e => [Value.vStr e.1, e.2]
  raw ("CASE " ++ conditions ++ " END") ps

/-- The closure state of a `transaction()` object: the captured
`queries` and `params` arrays. -/
structure TxState where
  queries : List String
  params : List Value

/-- `transaction()` starts with both arrays empty. -/
def transaction : TxState := ⟨[], []⟩

/-- `add(strings, ...values)`: run `sql`, push the query text, splice
the parameters.  The source performs no state check before mutating. -/
def TxState.add (t : TxState) (strings : List String) (values : List Value) : TxState :=
  let r := sql strings values
  ⟨t.queries ++ [r.query], t.params ++ r.params⟩

/-- `commit()`: join the accumulated texts with `"; "` and return the
flattened parameters.  The source mutates no state here. -/
def TxState.commit (t : TxState) : Statement :=
  ⟨String.intercalate "; " t.queries, t.params⟩

/-- `rollback()`: `queries.length = 0; params.length = 0`. -/
def TxState.rollback (_ : TxState) : TxState := ⟨[], []⟩

/-- A sequence of `add` calls, in order. -/
def addAll (t : TxState) (ts : List (List String × List Value)) : TxState :=
  ts.foldl (fun acc p => acc.add p.1 p.2) t

/-! ## Helper lemmas -/

/-- The instrumented fold computes the same query and parameter list as
the plain fold, from any starting accumulator. -/
theorem sqlAuxI_eq_sqlAux : ∀ (strs : List String) (vals : List Value) (acc : AccI),
    sqlAux strs vals acc.query acc.params =
      ⟨(sqlAuxI strs vals acc).query, (sqlAuxI strs vals acc).params⟩ := by
  intro strs
  induction strs with
  | nil => intro vals acc; rfl
  | cons str strs ih =>
    intro vals acc
    cases vals with
    | nil => exact ih [] { acc with query := acc.query ++ str }
    | cons v vs =>
      by_cases h : v.isSkip = true
      · simp only [sqlAux, sqlAuxI, h, if_true]
        exact ih vs acc
      · rw [Bool.not_eq_true] at h
        cases v with
        | vNull =>
            simp only [sqlAux, sqlAuxI, h, Bool.false_eq_true, if_false]
            exact ih vs { acc with query := acc.query ++ str }
        | vStr s =>
            simp only [sqlAux, sqlAuxI, h, Bool.false_eq_true, if_false]
            exact ih vs { query := acc.query ++ str ++ "?",
                          params := acc.params ++ [Value.vStr s],
                          nonRawQs := acc.nonRawQs + 1,
                          rawBoundPs := acc.rawBoundPs }
        | vNum n =>
            simp only [sqlAux, sqlAuxI, h, Bool.false_eq_true, if_false]
            exact ih vs { query := acc.query ++ str ++ "?",
                          params := acc.params ++ [Value.vNum n],
                          nonRawQs := acc.nonRawQs + 1,
                          rawBoundPs := acc.rawBoundPs }
        | vBool b =>
            simp only [sqlAux, sqlAuxI, h, Bool.false_eq_true, if_false]
            exact ih vs { query := acc.query ++ str ++ "?",
                          params := acc.params ++ [Value.vBool b],
                          nonRawQs := acc.nonRawQs + 1,
                          rawBoundPs := acc.rawBoundPs }
        | vRaw t ps =>
            simp only [sqlAux, sqlAuxI, h, Bool.false_eq_true, if_false]
            exact ih vs { acc with query := acc.query ++ str ++ t }
        | vArr xs =>
            simp only [sqlAux, sqlAuxI, h, Bool.false_eq_true, if_false]
            exact ih vs { query := acc.query ++ str ++ "(" ++
                            String.intercalate ", " (xs.map fun _ => "?") ++ ")",
                          params := acc.params ++ xs,
                          nonRawQs := acc.nonRawQs + xs.length,
                          rawBoundPs := acc.rawBoundPs }
        | vObj es =>
            simp only [sqlAux, sqlAuxI, h, Bool.false_eq_true, if_false]
            exact ih vs { query := acc.query ++ str ++
                            String.intercalate ", " (es.map fun e => e.1 ++ " = ?"),
                          params := acc.params ++ es.map fun e => e.2,
                          nonRawQs := acc.nonRawQs + es.length,
                          rawBoundPs := acc.rawBoundPs }

/-- Each step adds as many parameters as non-raw placeholders, so the
difference between the two counters is preserved by the fold. -/
theorem sqlAuxI_balance : ∀ (strs : List String) (vals : List Value) (acc : AccI),
    (sqlAuxI strs vals acc).params.length + acc.nonRawQs =
      (sqlAuxI strs vals acc).nonRawQs + acc.params.length := by
  intro strs
  induction strs with
  | nil => intro vals acc; exact Nat.add_comm _ _
  | cons str strs ih =>
    intro vals acc
    cases vals with
    | nil => exact ih [] { acc with query := acc.query ++ str }
    | cons v vs =>
      by_cases h : v.isSkip = true
      · simp only [sqlAuxI, h, if_true]
        exact ih vs acc
      · rw [Bool.not_eq_true] at h
        cases v with
        | vNull =>
            simp only [sqlAuxI, h, Bool.false_eq_true, if_false]
            exact ih vs { acc with query := acc.query ++ str }
        | vStr s =>
            simp only [sqlAuxI, h, Bool.false_eq_true, if_false]
            have := ih vs { query := acc.query ++ str ++ "?",
                            params := acc.params ++ [Value.vStr s],
                            nonRawQs := acc.nonRawQs + 1,
                            rawBoundPs := acc.rawBoundPs }
            simp only [List.length_append, List.length_cons, List.length_nil] at this ⊢
            omega
        | vNum n =>
            simp only [sqlAuxI, h, Bool.false_eq_true, if_false]
            have := ih vs { query := acc.query ++ str ++ "?",
                            params := acc.params ++ [Value.vNum n],
                            nonRawQs := acc.nonRawQs + 1,
                            rawBoundPs := acc.rawBoundPs }
            simp only [List.length_append, List.length_cons, List.length_nil] at this ⊢
            omega
        | vBool b =>
            simp only [sqlAuxI, h, Bool.false_eq_true, if_false]
            have := ih vs { query := acc.query ++ str ++ "?",
                            params := acc.params ++ [Value.vBool b],
                            nonRawQs := acc.nonRawQs + 1,
                            rawBoundPs := acc.rawBoundPs }
            simp only [List.length_append, List.length_cons, List.length_nil] at this ⊢
            omega
        | vRaw t ps =>
            simp only [sqlAuxI, h, Bool.false_eq_true, if_false]
            exact ih vs { acc with query := acc.query ++ str ++ t }
        | vArr xs =>
            simp only [sqlAuxI, h, Bool.false_eq_true, if_false]
            have := ih vs { query := acc.query ++ str ++ "(" ++
                              String.intercalate ", " (xs.map fun _ => "?") ++ ")",
                            params := acc.params ++ xs,
                            nonRawQs := acc.nonRawQs + xs.length,
                            rawBoundPs := acc.rawBoundPs }
            simp only [List.length_append] at this ⊢
            omega
        | vObj es =>
            simp only [sqlAuxI, h, Bool.false_eq_true, if_false]
            have := ih vs { query := acc.query ++ str ++
                              String.intercalate ", " (es.map fun e => e.1 ++ " = ?"),
                            params := acc.params ++ es.map fun e => e.2,
                            nonRawQs := acc.nonRawQs + es.length,
                            rawBoundPs := acc.rawBoundPs }
            simp only [List.length_append, List.length_map] at this ⊢
            omega

/-- No branch of the fold ever pushes a `Raw` wrapper's own `params`
onto the output parameter list, so the counter never moves. -/
theorem sqlAuxI_rawBound : ∀ (strs : List String) (vals : List Value) (acc : AccI),
    (sqlAuxI strs vals acc).rawBoundPs = acc.rawBoundPs := by
  intro strs
  induction strs with
  | nil => intro vals acc; rfl
  | cons str strs ih =>
    intro vals acc
    cases vals with
    | nil => exact ih [] { acc with query := acc.query ++ str }
    | cons v vs =>
      by_cases h : v.isSkip = true
      · simp only [sqlAuxI, h, if_true]
        exact ih vs acc
      · rw [Bool.not_eq_true] at h
        cases v <;> simp only [sqlAuxI, h, Bool.false_eq_true, if_false] <;> rw [ih]

/-- Unfolding a sequence of `add` calls from any starting state. -/
theorem addAll_spec : ∀ (ts : List (List String × List Value)) (t : TxState),
    addAll t ts =
      ⟨t.queries ++ ts.map fun p => (sql p.1 p.2).query,
       t.params ++ (ts.map fun p => (sql p.1 p.2).params).flatten⟩ := by
  intro ts
  induction ts with
  | nil => intro t; simp [addAll]
  | cons p ps ih =>
    intro t
    have hstep : addAll t (p :: ps) = addAll (t.add p.1 p.2) ps := rfl
    rw [hstep, ih]
    simp [TxState.add, List.append_assoc]

/-- The parameter lists interleaved by `caseWhen` have twice as many
entries as the case mapping. -/
theorem interleave_length : ∀ (cs : List (String × Value)),
    (cs.flatMap fun e => [Value.vStr e.1, e.2]).length = 2 * cs.length := by
  intro cs
  induction cs with
  | nil => rfl
  | cons c cs ih => simp only [List.flatMap_cons, List.length_append,
      List.length_cons, List.length_nil, ih]; omega

/-- Entry `i` of the case mapping lands at offsets `2 i` (its key) and
`2 i + 1` (its value) of the interleaved parameter list. -/
theorem interleave_getElem : ∀ (cs : List (String × Value)) (i : Nat), i < cs.length →
    (cs.flatMap fun e => [Value.vStr e.1, e.2])[2 * i]? =
      (cs[i]?.map fun e => Value.vStr e.1) ∧
    (cs.flatMap fun e => [Value.vStr e.1, e.2])[2 * i + 1]? =
      (cs[i]?.map fun e => e.2) := by
  intro cs
  induction cs with
  | nil => intro i hi; exact absurd hi (by simp)
  | cons c cs ih =>
    intro i hi
    cases i with
    | zero => simp
    | succ j =>
      have hj : j < cs.length := by simpa using Nat.lt_of_succ_lt_succ hi
      have h2 : 2 * (j + 1) = 2 * j + 1 + 1 := by omega
      have h3 : 2 * (j + 1) + 1 = (2 * j + 1) + 1 + 1 := by omega
      obtain ⟨ha, hb⟩ := ih j hj
      constructor
      · rw [h2]
        simpa using ha
      · rw [h3]
        simpa using hb

/-! ## Claims -/

/-- C1 (code evaluation at the failing input): the spec says a
RawFragment's `boundValues` are appended to the output parameter list,
but the interpolator's `Raw` branch (`result + str + value.value`)
splices the text verbatim and discards the wrapper's `params`
entirely: interpolating `raw("LIMIT ?", [10])` yields the text with the
fragment spliced in and an empty parameter list instead of `[10]`. -/
theorem c1_raw_bound_values_dropped :
    sql ["SELECT * FROM users ", ""] [raw "LIMIT ?" [Value.vNum 10]] =
      ⟨"SELECT * FROM users LIMIT ?", []⟩ := rfl

/-- C2 (counterexample): the claim says `segments[i]` is appended
verbatim before a marker string is skipped, but the skip branch is
`return result`, dropping the segment as well: with segments
`["A", "B"]` and the single value `"sql\x60"`, the query is `"B"`, not
the claimed `"AB"`. -/
theorem c2_counterexample :
    (sql ["A", "B"] [Value.vStr skipMarker]).query ≠ "AB" := by
  decide

/-- C2 (amended): for a value that is a plain string containing the
literal marker `sql\x60`, the interpolator appends nothing at all for
that step — neither the segment `segments[i]` nor any placeholder or
parameter — and continues with the next segment. -/
theorem c2_skip_drops_segment (v : Value) (h : v.isSkip = true) :
    ∀ (str : String) (strs : List String) (vs : List Value)
      (res : String) (ps : List Value),
      sqlAux (str :: strs) (v :: vs) res ps = sqlAux strs vs res ps := by
  intro str strs vs res ps
  simp only [sqlAux, h, if_true]

/-- C2 witness: the amended statement at a concrete marker string. -/
theorem c2_skip_drops_segment_witness :
    sqlAux ["A", "B"] [Value.vStr skipMarker] "" [] = sqlAux ["B"] [] "" [] :=
  c2_skip_drops_segment (Value.vStr skipMarker) (by decide) "A" ["B"] [] "" []

/-- C3: for a well-formed template (one more segment than values), the
number of placeholder markers contributed by the non-raw branches
equals the length of the output parameter list minus the number of
parameters contributed by interpolated RawFragments' `boundValues`
(the latter count being zero, since the `Raw` branch pushes none). -/
theorem c3_nonraw_placeholder_invariant (strs : List String) (vals : List Value)
    (h : strs.length = vals.length + 1) :
    (sqlI strs vals).nonRawQs =
      (sql strs vals).params.length - (sqlI strs vals).rawBoundPs := by
  have hb : (sqlI strs vals).params.length = (sqlI strs vals).nonRawQs := by
    simpa [sqlI] using sqlAuxI_balance strs vals ⟨"", [], 0, 0⟩
  have hr : (sqlI strs vals).rawBoundPs = 0 := by
    simpa [sqlI] using sqlAuxI_rawBound strs vals ⟨"", [], 0, 0⟩
  have hp : (sql strs vals).params = (sqlI strs vals).params := by
    have ha := sqlAuxI_eq_sqlAux strs vals ⟨"", [], 0, 0⟩
    exact congrArg Statement.params ha
  rw [hp, hb, hr, Nat.sub_zero]

/-- C3 witness: the invariant at a concrete one-value template. -/
theorem c3_nonraw_placeholder_invariant_witness :
    (sqlI ["SELECT ", ""] [Value.vNum 1]).nonRawQs =
      (sql ["SELECT ", ""] [Value.vNum 1]).params.length -
        (sqlI ["SELECT ", ""] [Value.vNum 1]).rawBoundPs :=
  c3_nonraw_placeholder_invariant ["SELECT ", ""] [Value.vNum 1] (by decide)

/-- C4 (counterexample): the claim covers "every string", but a string
containing the marker `sql\x60` is skipped: interpolated once, it
contributes no parameter at all, so `params` does not contain exactly
one entry equal to it. -/
theorem c4_counterexample :
    (sql ["X ", " Y"] [Value.vStr skipMarker]).params = [] ∧
    Value.vStr skipMarker ∉ (sql ["X ", " Y"] [Value.vStr skipMarker]).params := by
  refine ⟨rfl, ?_⟩
  intro hmem
  rw [(rfl : (sql ["X ", " Y"] [Value.vStr skipMarker]).params = [])] at hmem
  exact List.not_mem_nil _ hmem

/-- C4 (amended): every non-raw, non-null scalar value — a number, a
boolean, or a string not containing the marker `sql\x60` — interpolated
once yields exactly one placeholder marker with the scalar itself as
the single parameter at the corresponding position; booleans are bound
as-is, never coerced. -/
theorem c4_scalar_bound_once (v : Value) (hs : v.isScalar = true) (hm : v.isSkip = false) :
    (∀ s1 s2 : String, sql [s1, s2] [v] = ⟨s1 ++ "?" ++ s2, [v]⟩) ∧
    (∀ (str : String) (strs : List String) (vs : List Value)
       (res : String) (ps : List Value),
       sqlAux (str :: strs) (v :: vs) res ps =
         sqlAux strs vs (res ++ str ++ "?") (ps ++ [v])) := by
  constructor
  · intro s1 s2
    cases v with
    | vStr s => simp only [sql, sqlAux, hm, Bool.false_eq_true, if_false]; rfl
    | vNum n => rfl
    | vBool b => rfl
    | vNull => simp [Value.isScalar] at hs
    | vRaw t ps => simp [Value.isScalar] at hs
    | vArr xs => simp [Value.isScalar] at hs
    | vObj es => simp [Value.isScalar] at hs
  · intro str strs vs res ps
    cases v with
    | vStr s => simp only [sqlAux, hm, Bool.false_eq_true, if_false]
    | vNum n => rfl
    | vBool b => rfl
    | vNull => simp [Value.isScalar] at hs
    | vRaw t ps => simp [Value.isScalar] at hs
    | vArr xs => simp [Value.isScalar] at hs
    | vObj es => simp [Value.isScalar] at hs

/-- C4 witness: a boolean bound as an ordinary parameter. -/
theorem c4_scalar_bound_once_witness :
    sql ["active = ", ""] [Value.vBool true] =
      ⟨"active = " ++ "?" ++ "", [Value.vBool true]⟩ :=
  (c4_scalar_bound_once (Value.vBool true) (by decide) (by decide)).1 "active = " ""

/-- C5: an interpolated array appends `(`, one `?` per element separated
by `, `, then `)`, and appends the elements to the parameter list in
order; the empty array yields `()` with zero placeholders and zero
parameters. -/
theorem c5_array_interpolation :
    (∀ (str : String) (strs : List String) (xs vs : List Value)
       (res : String) (ps : List Value),
       sqlAux (str :: strs) (Value.vArr xs :: vs) res ps =
         sqlAux strs vs
           (res ++ str ++ "(" ++
             String.intercalate ", " (List.replicate xs.length "?") ++ ")")
           (ps ++ xs)) ∧
    (∀ (s1 s2 : String) (xs : List Value),
       sql [s1, s2] [Value.vArr xs] =
         ⟨s1 ++ "(" ++ String.intercalate ", " (List.replicate xs.length "?") ++
            ")" ++ s2, xs⟩) ∧
    sql ["WHERE id IN ", ""] [Value.vArr []] = ⟨"WHERE id IN ()", []⟩ := by
  refine ⟨?_, ?_, rfl⟩
  · intro str strs xs vs res ps
    simp only [sqlAux, Value.isSkip, Bool.false_eq_true, if_false, List.map_const']
  · intro s1 s2 xs
    simp only [sql, sqlAux, Value.isSkip, Bool.false_eq_true, if_false, List.map_const',
      String.empty_append, List.nil_append]

/-- C6: an interpolated plain object appends `<key> = ?` per entry
joined by `, ` with no surrounding parentheses, in the entry list's own
order (never sorted), and appends the entry values to the parameter
list in the same order. -/
theorem c6_object_interpolation :
    (∀ (str : String) (strs : List String) (es : List (String × Value))
       (vs : List Value) (res : String) (ps : List Value),
       sqlAux (str :: strs) (Value.vObj es :: vs) res ps =
         sqlAux strs vs
           (res ++ str ++ String.intercalate ", " (es.map fun e => e.1 ++ " = ?"))
           (ps ++ es.map fun e => e.2)) ∧
    sql ["UPDATE t SET ", ""] [Value.vObj [("b", Value.vNum 1), ("a", Value.vNum 2)]] =
      ⟨"UPDATE t SET b = ?, a = ?", [Value.vNum 1, Value.vNum 2]⟩ := by
  exact ⟨fun str strs es vs res ps => rfl, rfl⟩

/-- C7: `caseWhen(field, cases)` returns a RawFragment whose text is
`WHEN <field> = ? THEN ?` once per case entry, space-joined and wrapped
as `CASE … END`, and whose bound values interleave the entries as
condition, result, condition, result, … in entry order. -/
theorem c7_caseWhen_shape :
    (∀ (field : String) (cs : List (String × Value)),
      (caseWhen field cs).rawText =
        "CASE " ++ String.intercalate " "
          (List.replicate cs.length ("WHEN " ++ field ++ " = ? THEN ?")) ++ " END" ∧
      (caseWhen field cs).rawParams.length = 2 * cs.length ∧
      ∀ i : Nat, i < cs.length →
        (caseWhen field cs).rawParams[2 * i]? =
          (cs[i]?.map fun e => Value.vStr e.1) ∧
        (caseWhen field cs).rawParams[2 * i + 1]? =
          (cs[i]?.map fun e => e.2)) ∧
    caseWhen "status" [("active", Value.vNum 1), ("inactive", Value.vNum 0)] =
      Value.vRaw "CASE WHEN status = ? THEN ? WHEN status = ? THEN ? END"
        [Value.vStr "active", Value.vNum 1, Value.vStr "inactive", Value.vNum 0] := by
  refine ⟨?_, rfl⟩
  intro field cs
  refine ⟨?_, ?_, ?_⟩
  · simp only [caseWhen, raw, Value.rawText, List.map_const']
  · simpa only [caseWhen, raw, Value.rawParams] using interleave_length cs
  · intro i hi
    simpa only [caseWhen, raw, Value.rawParams] using interleave_getElem cs i hi

/-- C7 witness: the interleaving characterization at a singleton case
mapping. -/
theorem c7_caseWhen_shape_witness :
    (caseWhen "s" [("a", Value.vNull)]).rawParams[2 * 0]? =
      (([("a", Value.vNull)] : List (String × Value))[0]?.map fun e => Value.vStr e.1) ∧
    (caseWhen "s" [("a", Value.vNull)]).rawParams[2 * 0 + 1]? =
      (([("a", Value.vNull)] : List (String × Value))[0]?.map fun e => e.2) :=
  (c7_caseWhen_shape.1 "s" [("a", Value.vNull)]).2.2 0 (by decide)

/-- C8: committing an accumulator built by a sequence of `add` calls
returns the per-statement query texts joined with `"; "` and the
per-statement parameter lists concatenated in order. -/
theorem c8_transaction_commit :
    ∀ ts : List (List String × List Value),
      (addAll transaction ts).commit =
        ⟨String.intercalate "; " (ts.map fun p => (sql p.1 p.2).query),
         (ts.map fun p => (sql p.1 p.2).params).flatten⟩ := by
  intro ts
  rw [addAll_spec]
  simp [TxState.commit, transaction]

/-- C9 (counterexample): the claim says `add` after `commit` fails with
an InvalidState error, but the source tracks no state at all: after
committing the one-statement accumulator (yielding `"A"`), a further
`add` is accepted and the accumulator now commits to `"A; B"`. -/
theorem c9_counterexample :
    (TxState.add transaction ["A"] []).commit = ⟨"A", []⟩ ∧
    ((TxState.add transaction ["A"] []).add ["B"] []).commit = ⟨"A; B", []⟩ ∧
    ("A; B" : String) ≠ "A" :=
  ⟨rfl, rfl, by decide⟩

/-- C9 (amended): `add` after `commit` is accepted — the accumulator
enforces no terminal state (`commit` reads without mutating, and `add`
has no failure path), so the added statement and its parameters extend
the accumulator and appear in a subsequent commit. -/
theorem c9_add_after_commit_extends :
    ∀ (t : TxState) (strs : List String) (vals : List Value),
      (t.add strs vals).commit =
        ⟨String.intercalate "; " (t.queries ++ [(sql strs vals).query]),
         t.params ++ (sql strs vals).params⟩ := by
  intro t strs vals
  rfl

/-- C10: `rollback()` empties the accumulated statements and
parameters; a subsequent `commit()` succeeds and returns the empty
query text with no parameters, and later `add` calls accumulate into a
following commit exactly as on a fresh accumulator. -/
theorem c10_rollback_reopens :
    ∀ (t : TxState) (ts : List (List String × List Value)),
      (t.rollback).commit = ⟨"", []⟩ ∧
      (addAll t.rollback ts).commit = (addAll transaction ts).commit := by
  intro t ts
  exact ⟨rfl, rfl⟩
